import Mathlib

/-!
Verification development for the CS361 Group 4 proxy cache.

The Go source is shallowly embedded:
- byte slices become `List Nat`, header maps become ordered multimaps
  `List (String × List String)` (Go ranges over `http.Header` in an
  unspecified order; the embedding determinises it to list order);
- `time.Time` instants become `Int` numbers of whole seconds, which makes
  the truncation `int(time.Until(e.Expiry).Seconds())` the exact
  subtraction `e.Expiry - now`;
- the cache store `map[string]*Entry` becomes a function
  `String → Option Entry`, with `Get`/`Set`/`Delete` translated from
  `service/cache/cache.go` (the `sync.RWMutex` disappears: each handler
  invocation is modelled as one sequential execution);
- the outcome of `http.Get` plus `io.ReadAll` becomes the inductive
  `FetchResult`;
- the `/proxy` and `/cache` handlers from `cmd/run.go` become pure
  functions from a store, the clock readings the Go code takes, the `url`
  query parameter (`""` models both a missing and an empty parameter, as
  `r.URL.Query().Get` returns `""` for both) and the fetch outcome, to a
  response and an updated store.  The plain-text messages and
  `Content-Type` header written by `http.Error` are elided: error
  responses carry an empty body and no headers.
-/

/-- Models Go `unicode.IsSpace` on the code points Go treats as space in
Latin-1: tab, newline, vertical tab, form feed, carriage return, space,
NEL (U+0085) and NBSP (U+00A0). -/
def goIsSpace (c : Char) : Bool :=
  c == ' ' || c == '\t' || c == '\n' || c == '\x0b' || c == '\x0c' || c == '\r' ||
    c.toNat == 133 || c.toNat == 160

/-- Models Go `strings.Split(s, ",")`: the pieces of `s` around each comma,
empty pieces kept, so the result always has one more piece than commas. -/
def splitComma : List Char → List (List Char)
  | [] => [[]]
  | c :: rest =>
    if c = ',' then [] :: splitComma rest
    else
      match splitComma rest with
      | [] => [[c]]
      | p :: ps => (c :: p) :: ps

/-- Models Go `strings.TrimSpace`: drop spaces from both ends. -/
def trimSpace (s : List Char) : List Char :=
  ((s.dropWhile goIsSpace).reverse.dropWhile goIsSpace).reverse

/-- ASCII lower-casing of one character, as Go `strings.ToLower` acts on the
ASCII directive names relevant here. -/
def lowerChar (c : Char) : Char :=
  if 65 ≤ c.toNat ∧ c.toNat ≤ 90 then Char.ofNat (c.toNat + 32) else c

/-- One directive as the Go loops normalise it:
`strings.TrimSpace(strings.ToLower(d))`. -/
def cleanDirective (d : List Char) : List Char :=
  trimSpace (d.map lowerChar)

/-- Accumulating denotation of a digit string: `none` on the first
non-digit, as in Go `strconv.Atoi`. -/
def digitsVal : List Char → Nat → Option Nat
  | [], acc => some acc
  | c :: rest, acc =>
    if 48 ≤ c.toNat ∧ c.toNat ≤ 57 then digitsVal rest (acc * 10 + (c.toNat - 48))
    else none

/-- Models Go `strconv.Atoi`: an optional sign followed by at least one
digit, nothing else; machine-word overflow is not modelled (the spec never
mentions it and every directive of interest is small). -/
def atoi (s : List Char) : Option Int :=
  match s with
  | [] => none
  | c :: rest =>
    if c == '+' then
      match rest with
      | [] => none
      | _ => (digitsVal rest 0).map (fun n => (n : Int))
    else if c == '-' then
      match rest with
      | [] => none
      | _ => (digitsVal rest 0).map (fun n => -(n : Int))
    else (digitsVal s 0).map (fun n => (n : Int))

/-- The characters of the literal `"no-store"`. -/
def noStoreKey : List Char := ['n', 'o', '-', 's', 't', 'o', 'r', 'e']

/-- The characters of the literal `"max-age="`. -/
def maxAgeKey : List Char := ['m', 'a', 'x', '-', 'a', 'g', 'e', '=']

/-- The second loop of `ParseCacheControl` in `service/cache/cache.go`:
scan the directives for one with the `max-age=` marker whose remainder
parses to a strictly positive integer; skip malformed or non-positive
ones and keep scanning. -/
def scanMaxAge : List (List Char) → Int × Bool
  | [] => (0, false)
  | d :: rest =>
    if maxAgeKey.isPrefixOf (cleanDirective d) then
      match atoi ((cleanDirective d).drop 8) with
      | some n => if 0 < n then (n, true) else scanMaxAge rest
      | none => scanMaxAge rest
    else scanMaxAge rest

/-- Translation of `ParseCacheControl` from `service/cache/cache.go`:
returns `(max-age seconds, shouldStore)`. -/
def ParseCacheControl (header : String) : Int × Bool :=
  if header = "" then (0, false)
  else
    let directives := splitComma header.data
    if directives.any (fun d => cleanDirective d == noStoreKey) then (0, false)
    else scanMaxAge directives

/-- Whether a (already normalised) directive carries the `max-age=` marker
with a strictly positive integer remainder — the spec's notion of a valid
positive max-age directive. -/
def isPosMaxAgeDirective (d : List Char) : Bool :=
  maxAgeKey.isPrefixOf d &&
    (match atoi (d.drop 8) with
     | some n => decide (0 < n)
     | none => false)

/-- Spec rules 3 and 4 as one scan: the first valid positive max-age
directive gives the TTL, otherwise `(0, false)`. -/
def specScan (ds : List (List Char)) : Int × Bool :=
  match ds.find? isPosMaxAgeDirective with
  | some d => ((atoi (d.drop 8)).getD 0, true)
  | none => (0, false)

/-- Reference function written from the spec's ordered rules (section 4.2):
empty header not storable; split on commas, trim and lower-case each
directive; any `no-store` wins; otherwise the first directive with the
`max-age=` marker and a strictly positive base-10 remainder gives the TTL;
otherwise not storable. -/
def parseSpecRef (header : String) : Int × Bool :=
  if header = "" then (0, false)
  else
    let ds := (splitComma header.data).map cleanDirective
    if ds.any (fun d => d == noStoreKey) then (0, false)
    else specScan ds

/-- Ordered multimap of header names to value lists, the embedding of Go
`http.Header` (map iteration order determinised to list order). -/
abbrev Headers := List (String × List String)

/-- Models Go `http.Header.Add`: append the value to the existing list for
the name, or append a fresh pair at the end. -/
def Headers.add (hs : Headers) (k v : String) : Headers :=
  match hs with
  | [] => [(k, [v])]
  | (k', vs) :: rest =>
    if k' = k then (k', vs ++ [v]) :: rest else (k', vs) :: Headers.add rest k v

/-- Models Go `http.Header.Set`: replace the whole value list for the name
with the single value, or append a fresh pair at the end. -/
def Headers.set (hs : Headers) (k v : String) : Headers :=
  match hs with
  | [] => [(k, [v])]
  | (k', vs) :: rest =>
    if k' = k then (k', [v]) :: rest else (k', vs) :: Headers.set rest k v

/-- Models Go `http.Header.Get`: the first value stored under the name, or
`""` when the name is absent or has no values (header names are compared
verbatim; Go's MIME canonicalisation is ambient, all names of interest
being already canonical). -/
def Headers.get (hs : Headers) (n : String) : String :=
  match hs with
  | [] => ""
  | (k, vs) :: rest =>
    if k = n then
      match vs with
      | [] => ""
      | v :: _ => v
    else Headers.get rest n

/-- Whether some pair of the multimap carries the given name. -/
def Headers.hasName : Headers → String → Bool
  | [], _ => false
  | (k, _) :: rest, n => k == n || Headers.hasName rest n

/-- `Add` of every value of one name in order, the inner loop of the Go
handlers' header-copying `for k, vals := range h`. -/
def Headers.addValues (dst : Headers) (k : String) : List String → Headers
  | [] => dst
  | v :: vs => Headers.addValues (Headers.add dst k v) k vs

/-- The Go handlers' header-copying double loop: `Add` every (name, value)
pair of `src` into `dst`. -/
def Headers.addAll (dst : Headers) : Headers → Headers
  | [] => dst
  | (k, vs) :: rest => Headers.addAll (Headers.addValues dst k vs) rest

/-- Translation of `Entry` from `service/cache/cache.go`: body bytes,
headers, absolute expiry instant (whole seconds). -/
structure Entry where
  body : List Nat
  headers : Headers
  expiry : Int
deriving DecidableEq, Repr

/-- The cache store's contents: the embedding of the Go
`map[string]*Entry`. -/
abbrev Store := String → Option Entry

/-- Translation of `Cache.Get` from `service/cache/cache.go`.  Absent key:
absent, store untouched.  Present key with `time.Now().After(entry.Expiry)`
(strictly `expiry < now`): the entry is deleted and absent is returned.
Otherwise the entry is returned and the store is untouched.  The updated
store is returned explicitly because eviction mutates it. -/
def Cache.Get (s : Store) (now : Int) (url : String) : Option Entry × Store :=
  match s url with
  | none => (none, s)
  | some entry =>
    if entry.expiry < now then (none, fun k => if k = url then none else s k)
    else (some entry, s)

/-- Translation of `Cache.Set` from `service/cache/cache.go`: unconditional
insert-or-replace. -/
def Cache.Set (s : Store) (url : String) (entry : Entry) : Store :=
  fun k => if k = url then some entry else s k

/-- Translation of `Cache.Delete` from `service/cache/cache.go`: remove the
entry and report `true` when the key is present, report `false` and leave
the store untouched when it is absent. -/
def Cache.Delete (s : Store) (url : String) : Bool × Store :=
  match s url with
  | none => (false, s)
  | some _ => (true, fun k => if k = url then none else s k)

/-- Outcome of the origin fetch in the `/proxy` handler: `http.Get`
returned an error; `http.Get` succeeded but `io.ReadAll(resp.Body)`
failed; or a full origin response (status, headers, body bytes). -/
inductive FetchResult where
  | fetchErr : FetchResult
  | readErr : Nat → Headers → FetchResult
  | ok : Nat → Headers → List Nat → FetchResult
deriving DecidableEq, Repr

/-- An HTTP response as the handlers assemble it: status code, the headers
the handler itself emits, body bytes. -/
structure HttpResponse where
  status : Nat
  headers : Headers
  body : List Nat
deriving DecidableEq, Repr

/-- The `http.Error(w, _, http.StatusBadRequest)` response, message text
elided. -/
def badRequestResp : HttpResponse := { status := 400, headers := [], body := [] }

/-- The `http.Error(w, _, http.StatusBadGateway)` response, message text
elided. -/
def badGatewayResp : HttpResponse := { status := 502, headers := [], body := [] }

/-- The `w.WriteHeader(http.StatusNoContent)` response of the purge
handler. -/
def noContentResp : HttpResponse := { status := 204, headers := [], body := [] }

/-- The `http.Error(w, _, http.StatusNotFound)` response, message text
elided. -/
def notFoundResp : HttpResponse := { status := 404, headers := [], body := [] }

/-- Translation of the `/proxy` handler from `cmd/run.go`.  `tGet`, `tTTL`
and `tStore` are the three `time.Now()` readings the Go code takes: inside
`c.Get`, in `time.Until(entry.Expiry)` on a hit, and in the expiry
computation on a storable miss.  `fetch` is the outcome `http.Get` plus
`io.ReadAll` would produce for the target URL; on a hit it is simply
unused, which is how the model renders "no origin network call". -/
def proxyHandler (s : Store) (url : String) (tGet tTTL tStore : Int)
    (fetch : FetchResult) : HttpResponse × Store :=
  if url = "" then (badRequestResp, s)
  else
    let g := Cache.Get s tGet url
    match g.fst with
    | some entry =>
      let hs1 := Headers.addAll [] entry.headers
      let hs2 := Headers.set hs1 "X-Proxy-Cache" "HIT"
      let hs3 := Headers.set hs2 "X-Cache-TTL-Remaining" (toString (entry.expiry - tTTL))
      ({ status := 200, headers := hs3, body := entry.body }, g.snd)
    | none =>
      match fetch with
      | FetchResult.fetchErr => (badGatewayResp, g.snd)
      | FetchResult.readErr _ _ => (badGatewayResp, g.snd)
      | FetchResult.ok _ rh b =>
        let pc := ParseCacheControl (Headers.get rh "Cache-Control")
        let s2 :=
          if pc.snd then
            Cache.Set g.snd url { body := b, headers := rh, expiry := tStore + pc.fst }
          else g.snd
        let hs1 := Headers.addAll [] rh
        let hs2 := Headers.set hs1 "X-Proxy-Cache" "MISS"
        ({ status := 200, headers := hs2, body := b }, s2)

/-- Translation of the `DELETE /cache` handler from `cmd/run.go`. -/
def cacheDeleteHandler (s : Store) (url : String) : HttpResponse × Store :=
  if url = "" then (badRequestResp, s)
  else
    let d := Cache.Delete s url
    if d.fst then (noContentResp, d.snd) else (notFoundResp, d.snd)

/-- The source's skip-and-continue scan over raw directives agrees with the
spec's "first valid positive max-age directive" over the normalised
directives. -/
theorem scanMaxAge_eq_specScan (l : List (List Char)) :
    scanMaxAge l = specScan (l.map cleanDirective) := by
  induction l with
  | nil => simp [scanMaxAge, specScan]
  | cons d rest ih =>
    rw [List.map_cons]
    by_cases hpre : maxAgeKey.isPrefixOf (cleanDirective d) = true
    · cases hat : atoi ((cleanDirective d).drop 8) with
      | none =>
        have hp : isPosMaxAgeDirective (cleanDirective d) = false := by
          simp [isPosMaxAgeDirective, hpre, hat]
        have hspec : specScan (cleanDirective d :: List.map cleanDirective rest) =
            specScan (List.map cleanDirective rest) := by
          unfold specScan
          rw [List.find?_cons_of_neg _ (by simp [hp])]
        rw [hspec, ← ih]
        simp [scanMaxAge, hpre, hat]
      | some n =>
        by_cases hn : (0 : Int) < n
        · have hp : isPosMaxAgeDirective (cleanDirective d) = true := by
            simp [isPosMaxAgeDirective, hpre, hat, hn]
          have hspec : specScan (cleanDirective d :: List.map cleanDirective rest) =
              ((atoi ((cleanDirective d).drop 8)).getD 0, true) := by
            unfold specScan
            rw [List.find?_cons_of_pos _ hp]
          rw [hspec]
          simp [scanMaxAge, hpre, hat, hn]
        · have hp : isPosMaxAgeDirective (cleanDirective d) = false := by
            simp [isPosMaxAgeDirective, hpre, hat, hn]
          have hspec : specScan (cleanDirective d :: List.map cleanDirective rest) =
              specScan (List.map cleanDirective rest) := by
            unfold specScan
            rw [List.find?_cons_of_neg _ (by simp [hp])]
          rw [hspec, ← ih]
          simp [scanMaxAge, hpre, hat, hn]
    · have hp : isPosMaxAgeDirective (cleanDirective d) = false := by
        simp [isPosMaxAgeDirective, hpre]
      have hspec : specScan (cleanDirective d :: List.map cleanDirective rest) =
          specScan (List.map cleanDirective rest) := by
        unfold specScan
        rw [List.find?_cons_of_neg _ (by simp [hp])]
      rw [hspec, ← ih]
      simp [scanMaxAge, hpre]

/-- `ParseCacheControl` agrees with the spec's reference rules on every
header string. -/
theorem parseCacheControl_eq_specRef (h : String) :
    ParseCacheControl h = parseSpecRef h := by
  unfold ParseCacheControl parseSpecRef
  by_cases he : h = ""
  · simp [he]
  · simp only [he, if_false]
    rw [List.any_map]
    rw [scanMaxAge_eq_specScan]
    rfl


/-- `Add` introduces exactly one name: the added one. -/
theorem Headers.hasName_add (hs : Headers) (k v n : String) :
    Headers.hasName (Headers.add hs k v) n = (Headers.hasName hs n || (k == n)) := by
  induction hs with
  | nil => simp [Headers.add, Headers.hasName]
  | cons p rest ih =>
    obtain ⟨k', vs⟩ := p
    by_cases hk : k' = k
    · subst hk
      simp only [Headers.add, if_pos rfl, Headers.hasName]
      cases h1 : (k' == n) <;> cases h2 : Headers.hasName rest n <;> simp
    · simp only [Headers.add, if_neg hk, Headers.hasName, ih, Bool.or_assoc]

/-- `Set` introduces exactly one name: the set one. -/
theorem Headers.hasName_set (hs : Headers) (k v n : String) :
    Headers.hasName (Headers.set hs k v) n = (Headers.hasName hs n || (k == n)) := by
  induction hs with
  | nil => simp [Headers.set, Headers.hasName]
  | cons p rest ih =>
    obtain ⟨k', vs⟩ := p
    by_cases hk : k' = k
    · subst hk
      simp only [Headers.set, if_pos rfl, Headers.hasName]
      cases h1 : (k' == n) <;> cases h2 : Headers.hasName rest n <;> simp
    · simp only [Headers.set, if_neg hk, Headers.hasName, ih, Bool.or_assoc]

/-- Adding values under a different name leaves a name's presence
unchanged. -/
theorem Headers.hasName_addValues_ne (dst : Headers) (k n : String) (vs : List String)
    (hk : (k == n) = false) :
    Headers.hasName (Headers.addValues dst k vs) n = Headers.hasName dst n := by
  induction vs generalizing dst with
  | nil => rfl
  | cons v vs ih => simp [Headers.addValues, ih, Headers.hasName_add, hk]

/-- Copying a multimap that nowhere carries a name leaves that name's
presence unchanged. -/
theorem Headers.hasName_addAll_ne (src : Headers) (dst : Headers) (n : String)
    (hsrc : Headers.hasName src n = false) :
    Headers.hasName (Headers.addAll dst src) n = Headers.hasName dst n := by
  induction src generalizing dst with
  | nil => rfl
  | cons p rest ih =>
    obtain ⟨k, vs⟩ := p
    have hparts : (k == n) = false ∧ Headers.hasName rest n = false := by
      have := hsrc
      simp only [Headers.hasName, Bool.or_eq_false_iff] at this
      exact this
    simp only [Headers.addAll]
    rw [ih (Headers.addValues dst k vs) hparts.2,
      Headers.hasName_addValues_ne _ _ _ _ hparts.1]

/-- A `Get` that produced a hit left the store untouched. -/
theorem Cache.Get_hit_snd (s : Store) (t : Int) (url : String) (e : Entry)
    (h : (Cache.Get s t url).fst = some e) : (Cache.Get s t url).snd = s := by
  unfold Cache.Get at h ⊢
  cases hm : s url with
  | none => rw [hm] at h
  | some e' =>
    rw [hm] at h
    by_cases hx : e'.expiry < t
    · simp [hx] at h
    · simp [hx]

/-- Fixture for claim C1: an entry expiring at instant 5. -/
def c1Entry : Entry :=
  { body := [1, 2], headers := [("Content-Type", ["text/plain"])], expiry := 5 }

/-- Fixture for claim C1: a store holding `c1Entry` under one URL. -/
def c1Store : Store := fun k => if k = "http://origin/a" then some c1Entry else none

/-- C1 counterexample: the claim says a `get` performed exactly at
`t == expiry` treats the entry as expired and never returns it as a hit,
but `Cache.Get` uses the strict `time.Now().After(entry.Expiry)`, so at
`now = expiry = 5` the entry is returned as a hit. -/
theorem c1_get_at_exact_expiry_is_hit :
    c1Entry.expiry = 5 ∧ (Cache.Get c1Store 5 "http://origin/a").fst = some c1Entry := by
  constructor
  · rfl
  · decide

/-- C1 (amended): for every key held with `t > expiry` (strictly after),
`get` at `t` returns absent and removes the entry, so a subsequent `get`
at any instant also returns absent; a `get` performed exactly at
`t == expiry` returns the entry as a hit (equality counts as unexpired). -/
theorem c1_expiry_eviction_amended (s : Store) (url : String) (e : Entry) (now : Int)
    (hmem : s url = some e) (hexp : e.expiry < now) :
    (Cache.Get s now url).fst = none ∧
    (∀ t : Int, (Cache.Get (Cache.Get s now url).snd t url).fst = none) ∧
    (Cache.Get s e.expiry url).fst = some e := by
  refine ⟨?_, ?_, ?_⟩
  · unfold Cache.Get
    rw [hmem]
    simp [hexp]
  · intro t
    have h2 : (Cache.Get s now url).snd url = none := by
      unfold Cache.Get
      rw [hmem]
      simp [hexp]
    generalize hg : (Cache.Get s now url).snd = s2 at h2
    unfold Cache.Get
    rw [h2]
  · unfold Cache.Get
    rw [hmem]
    simp

/-- C1 witness: the amended theorem applied to `c1Store` at instant 6. -/
theorem c1_expiry_eviction_amended_witness :
    (Cache.Get c1Store 6 "http://origin/a").fst = none ∧
    (∀ t : Int, (Cache.Get (Cache.Get c1Store 6 "http://origin/a").snd t "http://origin/a").fst = none) ∧
    (Cache.Get c1Store c1Entry.expiry "http://origin/a").fst = some c1Entry :=
  c1_expiry_eviction_amended c1Store "http://origin/a" c1Entry 6 (by decide) (by decide)

/-- C5: a `get` at any instant strictly before the expiry of the entry
just `set` under the same key, with no intervening operation, returns
exactly the body, headers and expiry passed to the `set`. -/
theorem c5_set_get_round_trip (s : Store) (url : String) (e : Entry) (t : Int)
    (h : t < e.expiry) :
    (Cache.Get (Cache.Set s url e) t url).fst = some e := by
  have hnot : ¬ e.expiry < t := lt_asymm h
  unfold Cache.Get Cache.Set
  simp [hnot]

/-- Fixture for claim C5: an entry expiring at instant 10. -/
def c5Entry : Entry := { body := [3, 4, 5], headers := [("A", ["x", "y"])], expiry := 10 }

/-- C5 witness: the round trip on an empty store at instant 0. -/
theorem c5_set_get_round_trip_witness :
    (Cache.Get (Cache.Set (fun _ => none) "http://origin/b" c5Entry) 0 "http://origin/b").fst =
      some c5Entry :=
  c5_set_get_round_trip (fun _ => none) "http://origin/b" c5Entry 0 (by decide)

/-- C6: `delete` on a present key returns `true` and removes the entry, so
a second `delete` returns `false`; `delete` on an absent key returns
`false` and leaves the store unchanged. -/
theorem c6_delete_semantics (s : Store) (url : String) :
    (∀ e : Entry, s url = some e →
      (Cache.Delete s url).fst = true ∧
      (Cache.Delete s url).snd url = none ∧
      (Cache.Delete (Cache.Delete s url).snd url).fst = false) ∧
    (s url = none → Cache.Delete s url = (false, s)) := by
  constructor
  · intro e he
    refine ⟨?_, ?_, ?_⟩
    · unfold Cache.Delete
      rw [he]
    · unfold Cache.Delete
      rw [he]
      simp
    · have h2 : (Cache.Delete s url).snd url = none := by
        unfold Cache.Delete
        rw [he]
        simp
      generalize hg : (Cache.Delete s url).snd = s2 at h2
      unfold Cache.Delete
      rw [h2]
  · intro he
    unfold Cache.Delete
    rw [he]

/-- Fixture for claim C6: an entry and a one-entry store. -/
def c6Entry : Entry := { body := [9], headers := [], expiry := 100 }

/-- Fixture for claim C6. -/
def c6Store : Store := fun k => if k = "http://origin/c" then some c6Entry else none

/-- C6 witness: two successive deletes on a present key return `true` then
`false`, and a delete on an absent key is the identity. -/
theorem c6_delete_semantics_witness :
    ((Cache.Delete c6Store "http://origin/c").fst = true ∧
      (Cache.Delete c6Store "http://origin/c").snd "http://origin/c" = none ∧
      (Cache.Delete (Cache.Delete c6Store "http://origin/c").snd "http://origin/c").fst = false) ∧
    Cache.Delete c6Store "http://origin/zzz" = (false, c6Store) :=
  ⟨(c6_delete_semantics c6Store "http://origin/c").1 c6Entry (by decide),
    (c6_delete_semantics c6Store "http://origin/zzz").2 (by decide)⟩

/-- C10: `delete` never consults expiry — on a key whose stored entry has
already expired but was not yet lazily evicted, `delete` returns `true`
and removes the entry, and the purge handler responds 204 (no content),
not 404. -/
theorem c10_delete_ignores_expiry (s : Store) (url : String) (e : Entry) (now : Int)
    (hmem : s url = some e) (hurl : url ≠ "") (_hexp : e.expiry < now) :
    (Cache.Delete s url).fst = true ∧
    (Cache.Delete s url).snd url = none ∧
    (cacheDeleteHandler s url).fst = noContentResp ∧
    (cacheDeleteHandler s url).snd url = none := by
  have hd : Cache.Delete s url = (true, fun k => if k = url then none else s k) := by
    unfold Cache.Delete
    rw [hmem]
  refine ⟨?_, ?_, ?_, ?_⟩ <;> simp [cacheDeleteHandler, hurl, hd]

/-- Fixture for claim C10: an entry that expired at instant 0. -/
def c10Entry : Entry := { body := [7], headers := [("B", ["z"])], expiry := 0 }

/-- Fixture for claim C10. -/
def c10Store : Store := fun k => if k = "http://origin/d" then some c10Entry else none

/-- C10 witness: purging a stale-but-still-stored entry at instant 50. -/
theorem c10_delete_ignores_expiry_witness :
    (Cache.Delete c10Store "http://origin/d").fst = true ∧
    (Cache.Delete c10Store "http://origin/d").snd "http://origin/d" = none ∧
    (cacheDeleteHandler c10Store "http://origin/d").fst = noContentResp ∧
    (cacheDeleteHandler c10Store "http://origin/d").snd "http://origin/d" = none :=
  c10_delete_ignores_expiry c10Store "http://origin/d" c10Entry 50 (by decide) (by decide) (by decide)

/-- C9: an empty `url` query parameter (which is also what a missing
parameter yields) makes the proxy handler and the purge handler fail with
status 400, for every store, every clock reading and every conceivable
fetch outcome, and leaves the store untouched — so no origin access is
attempted and the store is neither consulted nor mutated. -/
theorem c9_empty_url_bad_request (s : Store) (t1 t2 t3 : Int) (f : FetchResult) :
    proxyHandler s "" t1 t2 t3 f = (badRequestResp, s) ∧
    cacheDeleteHandler s "" = (badRequestResp, s) := by
  constructor
  · simp [proxyHandler]
  · simp [cacheDeleteHandler]

/-- Fixture for claim C2: the empty store. -/
def c2Store : Store := fun _ => none

/-- Fixture for claim C2: origin headers without a cache-control
directive. -/
def c2H : Headers := [("Content-Type", ["text/plain"])]

/-- C2 counterexample: the claim says a successful miss responds with the
origin's own status code, but when the origin answers 404 the handler
writes `http.StatusOK`, so the response status is 200, not 404. -/
theorem c2_miss_status_not_origin_status :
    (proxyHandler c2Store "http://origin/e" 0 0 0 (FetchResult.ok 404 c2H [1])).fst.status = 200 ∧
    (proxyHandler c2Store "http://origin/e" 0 0 0 (FetchResult.ok 404 c2H [1])).fst.status ≠ 404 := by
  constructor
  · decide
  · decide

/-- C2 (amended): on a successful miss the handler re-emits every origin
response header additively, sets `X-Proxy-Cache` to `MISS`, does not set a
TTL-remaining header, and responds with the origin body unmodified — but
with the fixed status 200 regardless of the origin's own status code. -/
theorem c2_miss_response_amended (s : Store) (url : String) (t1 t2 t3 : Int)
    (st : Nat) (rh : Headers) (b : List Nat)
    (hurl : url ≠ "") (hmiss : (Cache.Get s t1 url).fst = none) :
    (proxyHandler s url t1 t2 t3 (FetchResult.ok st rh b)).fst =
      { status := 200,
        headers := Headers.set (Headers.addAll [] rh) "X-Proxy-Cache" "MISS",
        body := b } ∧
    (Headers.hasName rh "X-Cache-TTL-Remaining" = false →
      Headers.hasName (proxyHandler s url t1 t2 t3 (FetchResult.ok st rh b)).fst.headers
        "X-Cache-TTL-Remaining" = false) := by
  have hmain : (proxyHandler s url t1 t2 t3 (FetchResult.ok st rh b)).fst =
      { status := 200,
        headers := Headers.set (Headers.addAll [] rh) "X-Proxy-Cache" "MISS",
        body := b } := by
    simp [proxyHandler, hurl, hmiss]
  refine ⟨hmain, ?_⟩
  intro h
  rw [hmain]
  show Headers.hasName (Headers.set (Headers.addAll [] rh) "X-Proxy-Cache" "MISS")
    "X-Cache-TTL-Remaining" = false
  rw [Headers.hasName_set, Headers.hasName_addAll_ne rh [] "X-Cache-TTL-Remaining" h]
  decide

/-- C2 witness: the amended theorem at a 404 origin response carrying one
ordinary header. -/
theorem c2_miss_response_amended_witness :
    (proxyHandler c2Store "http://origin/e" 0 0 0 (FetchResult.ok 404 c2H [1])).fst =
      { status := 200,
        headers := Headers.set (Headers.addAll [] c2H) "X-Proxy-Cache" "MISS",
        body := [1] } ∧
    (Headers.hasName c2H "X-Cache-TTL-Remaining" = false →
      Headers.hasName (proxyHandler c2Store "http://origin/e" 0 0 0 (FetchResult.ok 404 c2H [1])).fst.headers
        "X-Cache-TTL-Remaining" = false) :=
  c2_miss_response_amended c2Store "http://origin/e" 0 0 0 404 c2H [1] (by decide) (by decide)

/-- Fixture for claim C4: an entry that expired at instant 0. -/
def c4Entry : Entry := { body := [1], headers := [], expiry := 0 }

/-- Fixture for claim C4. -/
def c4Store : Store := fun k => if k = "http://origin/f" then some c4Entry else none

/-- C4 counterexample: the claim says a failed fetch leaves the store
exactly as it was before the request, but the cache lookup that precedes
the fetch lazily evicts an expired entry, so after a fetch error the store
no longer holds the entry it held before the request. -/
theorem c4_error_path_store_changed_by_eviction :
    c4Store "http://origin/f" = some c4Entry ∧
    (proxyHandler c4Store "http://origin/f" 5 5 5 FetchResult.fetchErr).snd "http://origin/f" =
      none := by
  constructor
  · decide
  · decide

/-- C4 (amended): on a miss whose origin fetch fails or whose body cannot
be read, the handler responds 502 and never calls `set`: the resulting
store is exactly the store as the cache lookup left it (which differs from
the pre-request store only by the lazy eviction of an expired entry at the
requested URL), and when the key was plainly absent the store is exactly
the pre-request store. -/
theorem c4_error_paths_amended (s : Store) (url : String) (t1 t2 t3 : Int)
    (st : Nat) (rh : Headers)
    (hurl : url ≠ "") (hmiss : (Cache.Get s t1 url).fst = none) :
    (proxyHandler s url t1 t2 t3 FetchResult.fetchErr).fst.status = 502 ∧
    (proxyHandler s url t1 t2 t3 FetchResult.fetchErr).snd = (Cache.Get s t1 url).snd ∧
    (proxyHandler s url t1 t2 t3 (FetchResult.readErr st rh)).fst.status = 502 ∧
    (proxyHandler s url t1 t2 t3 (FetchResult.readErr st rh)).snd = (Cache.Get s t1 url).snd ∧
    (s url = none → (proxyHandler s url t1 t2 t3 FetchResult.fetchErr).snd = s) := by
  refine ⟨?_, ?_, ?_, ?_, ?_⟩
  · simp [proxyHandler, hurl, hmiss, badGatewayResp]
  · simp [proxyHandler, hurl, hmiss]
  · simp [proxyHandler, hurl, hmiss, badGatewayResp]
  · simp [proxyHandler, hurl, hmiss]
  · intro h
    have hg : Cache.Get s t1 url = (none, s) := by
      unfold Cache.Get
      rw [h]
    simp [proxyHandler, hurl, hg]

/-- C4 witness: the amended theorem on a store whose entry for the
requested URL already expired. -/
theorem c4_error_paths_amended_witness :
    (proxyHandler c4Store "http://origin/f" 5 5 5 FetchResult.fetchErr).fst.status = 502 ∧
    (proxyHandler c4Store "http://origin/f" 5 5 5 FetchResult.fetchErr).snd =
      (Cache.Get c4Store 5 "http://origin/f").snd ∧
    (proxyHandler c4Store "http://origin/f" 5 5 5 (FetchResult.readErr 500 [])).fst.status = 502 ∧
    (proxyHandler c4Store "http://origin/f" 5 5 5 (FetchResult.readErr 500 [])).snd =
      (Cache.Get c4Store 5 "http://origin/f").snd ∧
    (c4Store "http://origin/f" = none →
      (proxyHandler c4Store "http://origin/f" 5 5 5 FetchResult.fetchErr).snd = c4Store) :=
  c4_error_paths_amended c4Store "http://origin/f" 5 5 5 500 [] (by decide) (by decide)

/-- C7: on a miss whose origin response the policy marks storable, the
handler stores under the requested URL an entry built from the full body,
the origin headers and `expiry = now + maxAge`; and `Set` replaces
unconditionally — the stored result is the new entry whatever was there
before, no merge — while leaving every other key alone. -/
theorem c7_storable_miss_stores_entry (s : Store) (url : String) (t1 t2 t3 : Int)
    (st : Nat) (rh : Headers) (b : List Nat) (maxAge : Int)
    (hurl : url ≠ "") (hmiss : (Cache.Get s t1 url).fst = none)
    (hcc : ParseCacheControl (Headers.get rh "Cache-Control") = (maxAge, true)) :
    (proxyHandler s url t1 t2 t3 (FetchResult.ok st rh b)).snd url =
      some { body := b, headers := rh, expiry := t3 + maxAge } ∧
    (∀ (s0 : Store) (e : Entry), Cache.Set s0 url e url = some e) ∧
    (∀ (s0 : Store) (e : Entry) (k : String), k ≠ url → Cache.Set s0 url e k = s0 k) := by
  refine ⟨?_, ?_, ?_⟩
  · simp [proxyHandler, hurl, hmiss, hcc, Cache.Set]
  · intro s0 e
    simp [Cache.Set]
  · intro s0 e k hk
    simp [Cache.Set, hk]

/-- Fixture for claim C7: an entry previously stored with a different
TTL. -/
def c7Old : Entry := { body := [9, 9], headers := [], expiry := 3 }

/-- Fixture for claim C7: a store already holding an unexpired entry for
the URL about to be re-fetched. -/
def c7Store : Store := fun k => if k = "http://origin/h" then some c7Old else none

/-- Fixture for claim C7: origin headers carrying `max-age=60`. -/
def c7H : Headers := [("Cache-Control", ["max-age=60"]), ("X-B", ["w"])]

/-- C7 witness: the theorem at a miss over an evicted stale entry, storing
with TTL 60 at instant 7. -/
theorem c7_storable_miss_stores_entry_witness :
    (proxyHandler c7Store "http://origin/h" 9 9 7 (FetchResult.ok 200 c7H [5, 6])).snd
      "http://origin/h" = some { body := [5, 6], headers := c7H, expiry := 7 + 60 } ∧
    (∀ (s0 : Store) (e : Entry), Cache.Set s0 "http://origin/h" e "http://origin/h" = some e) ∧
    (∀ (s0 : Store) (e : Entry) (k : String), k ≠ "http://origin/h" →
      Cache.Set s0 "http://origin/h" e k = s0 k) :=
  c7_storable_miss_stores_entry c7Store "http://origin/h" 9 9 7 200 c7H [5, 6] 60
    (by decide) (by decide) (by decide)

/-- C8: on a hit the handler's outcome is the same for every fetch
outcome (no origin call), and it responds with status 200, the stored
body, every stored header re-emitted additively, `X-Proxy-Cache` set to
`HIT` and `X-Cache-TTL-Remaining` set to the literal `expiry - now`
seconds — for every TTL-clock reading `t2`, including readings past the
expiry that make the emitted value zero or negative — and the store is
unchanged. -/
theorem c8_hit_response (s : Store) (url : String) (e : Entry) (t1 t2 t3 : Int)
    (f1 f2 : FetchResult) (hurl : url ≠ "") (hhit : (Cache.Get s t1 url).fst = some e) :
    proxyHandler s url t1 t2 t3 f1 = proxyHandler s url t1 t2 t3 f2 ∧
    (proxyHandler s url t1 t2 t3 f1).fst =
      { status := 200,
        headers := Headers.set (Headers.set (Headers.addAll [] e.headers) "X-Proxy-Cache" "HIT")
          "X-Cache-TTL-Remaining" (toString (e.expiry - t2)),
        body := e.body } ∧
    (proxyHandler s url t1 t2 t3 f1).snd = s := by
  have hsnd := Cache.Get_hit_snd s t1 url e hhit
  have key : ∀ f : FetchResult, proxyHandler s url t1 t2 t3 f =
      ({ status := 200,
         headers := Headers.set (Headers.set (Headers.addAll [] e.headers) "X-Proxy-Cache" "HIT")
           "X-Cache-TTL-Remaining" (toString (e.expiry - t2)),
         body := e.body }, s) := by
    intro f
    simp [proxyHandler, hurl, hhit, hsnd]
  refine ⟨?_, ?_, ?_⟩
  · rw [key f1, key f2]
  · rw [key f1]
  · rw [key f1]

/-- Fixture for claim C8: an entry expiring at instant 10 with a
multi-value header. -/
def c8Entry : Entry := { body := [1, 2, 3], headers := [("X-A", ["v1", "v2"])], expiry := 10 }

/-- Fixture for claim C8. -/
def c8Store : Store := fun k => if k = "http://origin/g" then some c8Entry else none

/-- C8 witness: a hit looked up at instant 0 whose TTL clock reads 20, so
the emitted remaining-TTL value is the literal -10. -/
theorem c8_hit_response_witness :
    proxyHandler c8Store "http://origin/g" 0 20 0 FetchResult.fetchErr =
      proxyHandler c8Store "http://origin/g" 0 20 0 (FetchResult.ok 200 [] []) ∧
    (proxyHandler c8Store "http://origin/g" 0 20 0 FetchResult.fetchErr).fst =
      { status := 200,
        headers := Headers.set
          (Headers.set (Headers.addAll [] c8Entry.headers) "X-Proxy-Cache" "HIT")
          "X-Cache-TTL-Remaining" (toString (c8Entry.expiry - 20)),
        body := c8Entry.body } ∧
    (proxyHandler c8Store "http://origin/g" 0 20 0 FetchResult.fetchErr).snd = c8Store :=
  c8_hit_response c8Store "http://origin/g" c8Entry 0 20 0 FetchResult.fetchErr
    (FetchResult.ok 200 [] []) (by decide) (by decide)

/-- C3: `ParseCacheControl` agrees with the reference function defined by
the spec's ordered rules on every header string — empty header not
storable; any trimmed lower-cased directive equal to `no-store` wins over
any max-age; otherwise the first directive with the `max-age=` marker
whose remainder parses as a strictly positive base-10 integer gives the
TTL; otherwise `(0, false)` — and in particular the seven spec test
vectors hold. -/
theorem c3_parse_cache_control_spec_equiv :
    (∀ h : String, ParseCacheControl h = parseSpecRef h) ∧
    ParseCacheControl "" = (0, false) ∧
    ParseCacheControl "no-store" = (0, false) ∧
    ParseCacheControl "max-age=300" = (300, true) ∧
    ParseCacheControl "no-store, max-age=300" = (0, false) ∧
    ParseCacheControl "max-age=0" = (0, false) ∧
    ParseCacheControl "max-age=-5" = (0, false) ∧
    ParseCacheControl "public, max-age=120" = (120, true) := by
  refine ⟨parseCacheControl_eq_specRef, ?_, ?_, ?_, ?_, ?_, ?_, ?_⟩ <;> decide
